import Mathlib

/-!
Shallow embedding of src/mcp-client-python/client.py together with proofs
about its conversation loop, its transport connector and its error behaviour.

Modelling conventions:
- The Anthropic messages.create endpoint is an oracle mO : Nat -> ModelResponse,
  where the k-th create call issued while processing one query returns mO k.
- The MCP session call_tool endpoint is an oracle tO : String -> String -> String
  giving the result content for a tool name and an argument payload; argument
  payloads and result payloads are treated as opaque strings.
- A content block of a model response is either a text block or a tool-use
  block.  A tool-use block optionally carries a text attribute: the hasattr
  guard at client.py line 107 reads such an attribute when it exists, so the
  embedding keeps it as an Option.  Python attribute access content.text on
  the first block of a response is firstTextOf below; an empty content list
  raises IndexError and a block without the attribute raises AttributeError,
  matching the unguarded access response.content[0].text at line 126.
- process_query returns the observable trace of the query: the model requests
  issued, the tool invocations dispatched, the final message history and the
  returned string, or else the Python exception the run raises.
-/

/-- Python exceptions raised by the unguarded accesses in process_query. -/
inductive PyError where
  | indexError
  | attributeError
deriving DecidableEq

/-- One content block of a model response (client.py lines 94 to 100): either a
text block or a tool-use block with a name, an input payload and an optional
text attribute (the optional attribute mirrors the hasattr guard at line 107). -/
inductive ContentBlock where
  | text (s : String)
  | toolUse (name : String) (input : String) (text? : Option String)
deriving DecidableEq

/-- A model response: an ordered list of content blocks. -/
structure ModelResponse where
  content : List ContentBlock
deriving DecidableEq

/-- A tool as listed by the MCP server session (client.py lines 76 to 81 read
the name, the description and the inputSchema of each listed tool). -/
structure MCPTool where
  name : String
  description : String
  inputSchema : String
deriving DecidableEq

/-- A tool declaration in the shape the model API expects (client.py 77-81). -/
structure ToolDecl where
  name : String
  description : String
  input_schema : String
deriving DecidableEq

/-- One message of the conversation history (client.py 69-74 and 106-115). -/
structure Message where
  role : String
  content : String
deriving DecidableEq

/-- One request to the model API (client.py 84-89 and 119-124). -/
structure ModelRequest where
  model : String
  system? : Option String
  max_tokens : Nat
  messages : List Message
  tools? : Option (List ToolDecl)
deriving DecidableEq

/-- One dispatched tool invocation (client.py 99-104). -/
structure ToolInvocation where
  name : String
  input : String
  result : String
deriving DecidableEq

/-- The observable state of one process_query run: the message history, the
final_text accumulator, the model requests issued so far and the tool
invocations dispatched so far. -/
structure PQState where
  messages : List Message
  finalText : List String
  requests : List ModelRequest
  toolCalls : List ToolInvocation
deriving DecidableEq

/-- The system prompt attached from the second model call onward
(client.py lines 13 to 35). -/
def SYSTEM_PROMPT : String :=
  "You are an AI assistant that helps users by calling tools when necessary. " ++
  "Use the tools provided to you to answer user queries effectively. " ++
  "Before executing any SQL, remember that the schema is as follows:\n\n" ++
  "Based on the schema information provided, you have access to one table:\n\n" ++
  "## **CompanyFounding** (public schema)\n\n" ++
  "This table contains information about companies and has the following columns:\n\n" ++
  "- **Symbol** (text, NOT NULL, Primary Key) - Company stock symbol\n" ++
  "- **Security** (text, nullable) - Security name/description\n" ++
  "- **GICS Sector** (text, nullable) - Global Industry Classification Standard sector\n" ++
  "- **GICS Sub-Industry** (text, nullable) - GICS sub-industry classification\n" ++
  "- **Headquarters Location** (text, nullable) - Company headquarters location\n" ++
  "- **Date added** (text, nullable) - Date when the company was added\n" ++
  "- **CIK** (bigint, nullable) - Central Index Key (SEC identifier)\n" ++
  "- **Founded** (text, nullable) - Company founding date/year" ++
  "When executing SQL, remember that table and column names are case-sensitive. " ++
  "If using Pinecone, do not use list-indexes tool; you know that the index name is \x27books\x27 and namespace is \x27namespace1\x27. " ++
  "For Semantic Search, use the tool \x27search-records\x27 with the query parameter. " ++
  "If you don\x27t know the answer, use the tools to find out."

/-- The tool catalog transformation (client.py lines 77 to 81): each listed
tool is mapped to the declaration shape the model API expects. -/
def availableTools (tools : List MCPTool) : List ToolDecl :=
  tools.map fun t =>
    { name := t.name, description := t.description, input_schema := t.inputSchema }

/-- Python expression response.content[0].text (client.py line 126): IndexError
on an empty content list, AttributeError when the first block carries no text
attribute. -/
def firstTextOf (r : ModelResponse) : Except PyError String :=
  match r.content with
  | [] => Except.error PyError.indexError
  | b :: _ =>
      match b with
      | ContentBlock.text s => Except.ok s
      | ContentBlock.toolUse _ _ (some t) => Except.ok t
      | ContentBlock.toolUse _ _ none => Except.error PyError.attributeError

/-- The synthetic assistant message appended when a processed tool-use block
carries a truthy text attribute (client.py lines 107 to 111): nonempty text
yields one assistant message, otherwise nothing is appended. -/
def optAssistant (text? : Option String) : List Message :=
  match text? with
  | some t => if t = "" then [] else [⟨"assistant", t⟩]
  | none => []

/-- The body of the for loop of process_query (client.py lines 94 to 126),
iterating over the content blocks of the FIRST model response only: a text
block appends its text to final_text; a tool-use block dispatches the tool,
appends a marker line to final_text, appends an assistant message when the
block carries a nonempty text attribute, appends the user-role tool-result
message, issues a follow-up model call carrying the system prompt and no tool
declarations, and appends the text of the first content block of that call. -/
def processBlocks (tO : String → String → String) (mO : Nat → ModelResponse) :
    List ContentBlock → PQState → Except PyError PQState
  | [], st => Except.ok st
  | ContentBlock.text s :: rest, st =>
      processBlocks tO mO rest { st with finalText := st.finalText ++ [s] }
  | ContentBlock.toolUse name input text? :: rest, st =>
      let result := tO name input
      let marker := "[Calling tool " ++ name ++ " with args " ++ input ++ "]"
      let msgs2 := st.messages ++ optAssistant text? ++ [⟨"user", result⟩]
      let req : ModelRequest :=
        ⟨"claude-sonnet-4-0", some SYSTEM_PROMPT, 10000, msgs2, none⟩
      match firstTextOf (mO st.requests.length) with
      | Except.error e => Except.error e
      | Except.ok t =>
          processBlocks tO mO rest
            { messages := msgs2,
              finalText := st.finalText ++ [marker, t],
              requests := st.requests ++ [req],
              toolCalls := st.toolCalls ++ [⟨name, input, result⟩] }

/-- The initial model request of a query (client.py lines 84 to 89): no system
prompt, tool declarations computed from the listed tools. -/
def initReq (q : String) (tools : List MCPTool) : ModelRequest :=
  ⟨"claude-sonnet-4-0", none, 10000, [⟨"user", q⟩], some (availableTools tools)⟩

/-- The state of a query run right after the initial model call
(client.py lines 69 to 92). -/
def initState (q : String) (tools : List MCPTool) : PQState :=
  ⟨[⟨"user", q⟩], [], [initReq q tools], []⟩

/-- MCPClient.process_query (client.py lines 66 to 128).  The parameter tools
is the result of the single session.list_tools() call at line 76; tO and mO
are the call_tool and messages.create oracles.  Returns the joined final_text
and the run trace, or the Python exception raised. -/
def process_query (q : String) (tools : List MCPTool)
    (tO : String → String → String) (mO : Nat → ModelResponse) :
    Except PyError (String × PQState) :=
  match processBlocks tO mO (mO 0).content (initState q tools) with
  | Except.error e => Except.error e
  | Except.ok st => Except.ok (String.intercalate ("\n") st.finalText, st)

/-- Extracts the successful result of process_query, defaulting on error. -/
def runPQ (q : String) (tools : List MCPTool)
    (tO : String → String → String) (mO : Nat → ModelResponse) : String × PQState :=
  match process_query q tools tO mO with
  | Except.ok p => p
  | Except.error _ => ("", ⟨[], [], [], []⟩)

/-- A server launch configuration (client.py lines 44 to 51): the command
entry may be absent, args and env default to empty. -/
structure ServerConfig where
  command? : Option String
  args : List String
  env : List (String × String)
deriving DecidableEq

/-- The session-relevant state of an MCPClient instance: the open session is
abstracted by the toolset of the server it is connected to (client.py 38-42). -/
structure ClientState where
  session? : Option (List MCPTool)
deriving DecidableEq

/-- MCPClient.connect (client.py lines 44 to 64): raises ValueError when the
config carries no command (or an empty one) before any session is opened;
otherwise opens the session.  The second component is the raised error, if
any. -/
def connect (cfg : ServerConfig) (serverTools : List MCPTool) (st : ClientState) :
    ClientState × Option String :=
  match cfg.command? with
  | none => (st, some ("Server configuration must include a \x27command\x27"))
  | some c =>
      if c = "" then (st, some ("Server configuration must include a \x27command\x27"))
      else ({ st with session? := some serverTools }, none)

/-- The texts of the text blocks of a block list, in order. -/
def textsOf (blocks : List ContentBlock) : List String :=
  blocks.filterMap fun b =>
    match b with
    | ContentBlock.text s => some s
    | ContentBlock.toolUse _ _ _ => none

/-- The name and input of each tool-use block of a block list, in order. -/
def toolUsesOf (blocks : List ContentBlock) : List (String × String) :=
  blocks.filterMap fun b =>
    match b with
    | ContentBlock.text _ => none
    | ContentBlock.toolUse n a _ => some (n, a)

/-- How many messages processing one content block appends to the history:
none for a text block; for a tool-use block, the user tool-result message plus
an assistant message when the block carries a nonempty text attribute. -/
def msgGrowth : ContentBlock → Nat
  | ContentBlock.text _ => 0
  | ContentBlock.toolUse _ _ text? =>
      match text? with
      | some t => if t = "" then 1 else 2
      | none => 1

/-- Closed form of the final_text accumulator produced by processBlocks when
it succeeds, with k the index of the next model call: a text block contributes
its text; a tool-use block contributes its marker line followed by the text of
the first content block of the follow-up response. -/
def emitted (mO : Nat → ModelResponse) : List ContentBlock → Nat → List String
  | [], _ => []
  | ContentBlock.text s :: rest, k => s :: emitted mO rest k
  | ContentBlock.toolUse n a _ :: rest, k =>
      ("[Calling tool " ++ n ++ " with args " ++ a ++ "]") ::
        (match firstTextOf (mO k) with
         | Except.ok t => t
         | Except.error _ => "") :: emitted mO rest (k + 1)

/-- The text blocks seen across the whole exchange in emission order, as the
specification words them: the text blocks of the first response in block
order, with the text blocks of each follow-up response inlined at the point
the corresponding tool-use block is processed. -/
def seenTexts (mO : Nat → ModelResponse) : List ContentBlock → Nat → List String
  | [], _ => []
  | ContentBlock.text s :: rest, k => s :: seenTexts mO rest k
  | ContentBlock.toolUse _ _ _ :: rest, k =>
      textsOf (mO k).content ++ seenTexts mO rest (k + 1)

/-- Relation between two consecutive model requests of one run: the later
request extends the earlier one by exactly one user-role tool-result message
carrying the result of the intervening tool invocation, possibly preceded by
one assistant text message. -/
def StepRel (r r2 : ModelRequest) (tc : ToolInvocation) : Prop :=
  r2.messages = r.messages ++ [⟨"user", tc.result⟩] ∨
  ∃ t, r2.messages = r.messages ++ [⟨"assistant", t⟩, ⟨"user", tc.result⟩]

/-- Chain invariant of a run trace: one more request than tool invocations,
the last request carries the current history, and consecutive requests are
linked by StepRel through the corresponding tool invocation. -/
def ChainInv (st : PQState) : Prop :=
  st.requests.length = st.toolCalls.length + 1 ∧
  st.requests.getLast?.map ModelRequest.messages = some st.messages ∧
  ∀ j r r2 tc, st.requests[j]? = some r → st.requests[j + 1]? = some r2 →
    st.toolCalls[j]? = some tc → StepRel r r2 tc

/-- Claim C1 as stated: whenever any model response issued during the query
contains a tool-use block, that block is dispatched and a further model call
is issued before the loop terminates. -/
def C1Stated : Prop :=
  ∀ q tools tO mO res st, process_query q tools tO mO = Except.ok (res, st) →
    ∀ k, k < st.requests.length →
      ∀ n a t?, ContentBlock.toolUse n a t? ∈ (mO k).content →
        ((n, a) ∈ st.toolCalls.map (fun tc => (tc.name, tc.input)) ∧
          k + 1 < st.requests.length)

/-- Claim C3 as stated: a first response with N tool-use blocks, N at least 1,
triggers exactly N additional model calls and the history grows by exactly 2
messages per tool-use block processed. -/
def C3Stated : Prop :=
  ∀ q tools tO mO res st, process_query q tools tO mO = Except.ok (res, st) →
    1 ≤ (toolUsesOf (mO 0).content).length →
      (st.requests.length = 1 + (toolUsesOf (mO 0).content).length ∧
        st.messages.length = 1 + 2 * st.toolCalls.length)

/-- Claim C4 as stated: every model request issued during a query carries the
tool declarations computed from the listed tools. -/
def C4Stated : Prop :=
  ∀ q tools tO mO res st, process_query q tools tO mO = Except.ok (res, st) →
    ∀ (k : Nat) (r : ModelRequest), st.requests[k]? = some r →
      r.tools? = some (availableTools tools)

/-- Claim C7 as stated: the returned string is exactly the newline join of the
text blocks seen across the whole exchange, in emission order, and nothing
else. -/
def C7Stated : Prop :=
  ∀ q tools tO mO res st, process_query q tools tO mO = Except.ok (res, st) →
    res = String.intercalate ("\n") (seenTexts mO (mO 0).content 1)

/-- Whether a content block is a text block. -/
def isTextBlock : ContentBlock → Bool
  | ContentBlock.text _ => true
  | ContentBlock.toolUse _ _ _ => false

/-- Claim C10 as stated: a successful run requires every consulted follow-up
response to have nonempty content whose first block is a text block;
equivalently, an empty or non-text-first follow-up makes process_query raise. -/
def C10Stated : Prop :=
  ∀ q tools tO mO res st, process_query q tools tO mO = Except.ok (res, st) →
    ∀ k, 1 ≤ k → k < st.requests.length →
      ∃ b rest2, (mO k).content = b :: rest2 ∧ isTextBlock b = true

/-- Tool oracle used by the concrete runs below. -/
def exTO : String → String → String :=
  fun n a => n ++ (":") ++ a

/-- Model oracle: first response one tool-use block without a text attribute,
every follow-up response a single text block. -/
def exMO1 : Nat → ModelResponse :=
  fun k =>
    if k = 0 then ⟨[ContentBlock.toolUse ("A") ("a") none]⟩
    else ⟨[ContentBlock.text ("ok")]⟩

/-- Model oracle: first response one tool-use block, the follow-up response a
text block followed by a further tool-use block. -/
def exMO2 : Nat → ModelResponse :=
  fun k =>
    if k = 0 then ⟨[ContentBlock.toolUse ("A") ("a") none]⟩
    else ⟨[ContentBlock.text ("x"), ContentBlock.toolUse ("B") ("b") none]⟩

/-- Model oracle: first response one tool-use block, the follow-up response a
single tool-use block that carries a text attribute. -/
def exMO3 : Nat → ModelResponse :=
  fun k =>
    if k = 0 then ⟨[ContentBlock.toolUse ("A") ("a") none]⟩
    else ⟨[ContentBlock.toolUse ("B") ("b") (some ("bt"))]⟩

/-- Model oracle: every response is two text blocks and no tool-use block. -/
def exMOText : Nat → ModelResponse :=
  fun _ => ⟨[ContentBlock.text ("hello"), ContentBlock.text ("world")]⟩

/-- Placeholder request used as a getD default in concrete refutations. -/
def defaultReq : ModelRequest :=
  ⟨"", none, 0, [], none⟩

/-- Helper: an index hit in a list lies below the length of the list. -/
lemma idx_lt_of_getElem_opt {α : Type} {l : List α} {n : Nat} {a : α}
    (h : l[n]? = some a) : n < l.length := by
  by_contra hc
  push_neg at hc
  rw [List.getElem?_eq_none hc] at h
  cases h

/-- Unfolding toolUsesOf over a text block. -/
lemma toolUsesOf_cons_text (s : String) (rest : List ContentBlock) :
    toolUsesOf (ContentBlock.text s :: rest) = toolUsesOf rest := by
  simp [toolUsesOf]

/-- Unfolding toolUsesOf over a tool-use block. -/
lemma toolUsesOf_cons_tool (n a : String) (t? : Option String)
    (rest : List ContentBlock) :
    toolUsesOf (ContentBlock.toolUse n a t? :: rest) = (n, a) :: toolUsesOf rest := by
  simp [toolUsesOf]

/-- Unfolding textsOf over a text block. -/
lemma textsOf_cons_text (s : String) (rest : List ContentBlock) :
    textsOf (ContentBlock.text s :: rest) = s :: textsOf rest := by
  simp [textsOf]

/-- Unfolding textsOf over a tool-use block. -/
lemma textsOf_cons_tool (n a : String) (t? : Option String)
    (rest : List ContentBlock) :
    textsOf (ContentBlock.toolUse n a t? :: rest) = textsOf rest := by
  simp [textsOf]

/-- The length contribution of the optional assistant message matches
msgGrowth. -/
lemma msgGrowth_tool (n a : String) (t? : Option String) :
    msgGrowth (ContentBlock.toolUse n a t?) = (optAssistant t?).length + 1 := by
  rcases t? with _ | t
  · simp [msgGrowth, optAssistant]
  · by_cases ht : t = "" <;> simp [msgGrowth, optAssistant, ht]

/-- Main characterisation of the loop body: on success, the trace grows by
exactly the data determined by the processed blocks of the first response. -/
lemma processBlocks_spec (tO : String → String → String) (mO : Nat → ModelResponse) :
    ∀ (blocks : List ContentBlock) (st st2 : PQState),
      processBlocks tO mO blocks st = Except.ok st2 →
      st2.requests.length = st.requests.length + (toolUsesOf blocks).length ∧
      st2.toolCalls = st.toolCalls ++
        (toolUsesOf blocks).map (fun p => ⟨p.1, p.2, tO p.1 p.2⟩) ∧
      st2.messages.length = st.messages.length + (blocks.map msgGrowth).sum ∧
      st2.finalText = st.finalText ++ emitted mO blocks st.requests.length ∧
      (∃ delta, st2.requests = st.requests ++ delta ∧
        ∀ r ∈ delta, r.system? = some SYSTEM_PROMPT ∧ r.tools? = none) ∧
      (∀ k, st.requests.length ≤ k → k < st2.requests.length →
        ∃ t, firstTextOf (mO k) = Except.ok t) := by
  intro blocks
  induction blocks with
  | nil =>
      intro st st2 h
      simp only [processBlocks] at h
      cases h
      refine ⟨by simp [toolUsesOf], by simp [toolUsesOf], by simp,
        by simp [emitted], ⟨[], by simp, by simp⟩, ?_⟩
      intro k hk1 hk2
      exact absurd hk2 (by omega)
  | cons b rest ih =>
      intro st st2 h
      cases b with
      | text s =>
          simp only [processBlocks] at h
          obtain ⟨h1, h2, h3, h4, ⟨delta, hd1, hd2⟩, h6⟩ := ih _ _ h
          refine ⟨by simpa [toolUsesOf_cons_text] using h1,
            by simpa [toolUsesOf_cons_text] using h2,
            by simpa [msgGrowth] using h3, ?_,
            ⟨delta, by simpa using hd1, hd2⟩, by simpa using h6⟩
          simp only [emitted]
          simp only [List.append_assoc, List.singleton_append] at h4
          simpa using h4
      | toolUse name input text? =>
          simp only [processBlocks] at h
          cases hft : firstTextOf (mO st.requests.length) with
          | error e =>
              rw [hft] at h
              cases h
          | ok t =>
              rw [hft] at h
              obtain ⟨h1, h2, h3, h4, ⟨delta, hd1, hd2⟩, h6⟩ := ih _ _ h
              simp only [List.length_append, List.length_cons, List.length_nil] at h1
              constructor
              · rw [h1, toolUsesOf_cons_tool]
                simp only [List.length_cons]
                omega
              constructor
              · rw [h2, toolUsesOf_cons_tool]
                simp [List.append_assoc]
              constructor
              · rw [h3]
                simp only [List.map_cons, List.sum_cons, List.length_append,
                  List.length_cons, List.length_nil, msgGrowth_tool]
                omega
              constructor
              · rw [h4]
                simp only [emitted, hft]
                simp [List.append_assoc, List.length_append]
              constructor
              · refine ⟨⟨"claude-sonnet-4-0", some SYSTEM_PROMPT, 10000,
                  st.messages ++ optAssistant text? ++
                    [⟨"user", tO name input⟩], none⟩ :: delta, ?_, ?_⟩
                · rw [hd1]
                  simp [List.append_assoc]
                · intro r hr
                  rcases List.mem_cons.mp hr with hr1 | hr2
                  · subst hr1
                    exact ⟨rfl, rfl⟩
                  · exact hd2 r hr2
              · intro k hk1 hk2
                by_cases hk : k = st.requests.length
                · subst hk
                  exact ⟨t, hft⟩
                · refine h6 k ?_ hk2
                  simp only [List.length_append, List.length_cons, List.length_nil]
                  omega


/-- The loop body preserves the chain invariant linking consecutive requests
through the intervening tool invocation. -/
lemma processBlocks_chain (tO : String → String → String) (mO : Nat → ModelResponse) :
    ∀ (blocks : List ContentBlock) (st st2 : PQState),
      processBlocks tO mO blocks st = Except.ok st2 →
      ChainInv st → ChainInv st2 := by
  intro blocks
  induction blocks with
  | nil =>
      intro st st2 h hinv
      simp only [processBlocks] at h
      cases h
      exact hinv
  | cons b rest ih =>
      intro st st2 h hinv
      cases b with
      | text s =>
          simp only [processBlocks] at h
          exact ih _ _ h hinv
      | toolUse name input text? =>
          simp only [processBlocks] at h
          cases hft : firstTextOf (mO st.requests.length) with
          | error e =>
              rw [hft] at h
              cases h
          | ok t =>
              rw [hft] at h
              obtain ⟨hlen, hlast, hstep⟩ := hinv
              refine ih _ _ h ⟨by simp [hlen], by simp [List.getLast?_concat], ?_⟩
              intro j r r2 tc hj hj2 htc
              have hbound : j + 1 < st.requests.length + 1 := by
                have hb := idx_lt_of_getElem_opt hj2
                simpa using hb
              by_cases hcase : j + 1 < st.requests.length
              · have hjlt : j < st.requests.length := by omega
                have hjtclt : j < st.toolCalls.length := by omega
                rw [List.getElem?_append, if_pos hjlt] at hj
                rw [List.getElem?_append, if_pos hcase] at hj2
                rw [List.getElem?_append, if_pos hjtclt] at htc
                exact hstep j r r2 tc hj hj2 htc
              · have hj1 : j + 1 = st.requests.length := by omega
                have hjlt : j < st.requests.length := by omega
                have hjtc : j = st.toolCalls.length := by omega
                rw [hj1] at hj2
                rw [List.getElem?_concat_length] at hj2
                injection hj2 with hr2
                rw [hjtc] at htc
                rw [List.getElem?_concat_length] at htc
                injection htc with htcv
                rw [List.getElem?_append, if_pos hjlt] at hj
                have hgl : st.requests.getLast? = some r := by
                  rw [List.getLast?_eq_getElem?]
                  rw [show st.requests.length - 1 = j by omega]
                  exact hj
                rw [hgl] at hlast
                have hrmsg : r.messages = st.messages := by
                  simpa using hlast
                subst hr2
                subst htcv
                rcases text? with _ | tt
                · left
                  simp only [optAssistant]
                  rw [hrmsg]
                  simp
                · by_cases htt : tt = ""
                  · left
                    simp only [optAssistant, htt, if_pos rfl]
                    rw [hrmsg]
                    simp
                  · right
                    refine ⟨tt, ?_⟩
                    simp only [optAssistant, if_neg htt]
                    rw [hrmsg]
                    simp

/-- A block list without tool-use blocks is processed without any model call
or tool invocation: only the texts are appended to final_text. -/
lemma processBlocks_noTool (tO : String → String → String) (mO : Nat → ModelResponse) :
    ∀ (blocks : List ContentBlock) (st : PQState), toolUsesOf blocks = [] →
      processBlocks tO mO blocks st =
        Except.ok { st with finalText := st.finalText ++ textsOf blocks } := by
  intro blocks
  induction blocks with
  | nil =>
      intro st hnt
      simp [processBlocks, textsOf]
  | cons b rest ih =>
      intro st hnt
      cases b with
      | text s =>
          rw [toolUsesOf_cons_text] at hnt
          simp only [processBlocks]
          rw [ih _ hnt]
          simp [textsOf_cons_text, List.append_assoc]
      | toolUse name input text? =>
          rw [toolUsesOf_cons_tool] at hnt
          cases hnt

/-- Unfolding a successful process_query run into its loop equation. -/
lemma process_query_ok (q : String) (tools : List MCPTool)
    (tO : String → String → String) (mO : Nat → ModelResponse)
    (res : String) (st : PQState)
    (h : process_query q tools tO mO = Except.ok (res, st)) :
    processBlocks tO mO (mO 0).content (initState q tools) = Except.ok st ∧
    res = String.intercalate ("\n") st.finalText := by
  unfold process_query at h
  cases hpb : processBlocks tO mO (mO 0).content (initState q tools) with
  | error e =>
      rw [hpb] at h
      cases h
  | ok st3 =>
      rw [hpb] at h
      simp only [Except.ok.injEq, Prod.mk.injEq] at h
      obtain ⟨hres, hst⟩ := h
      subst hst
      exact ⟨rfl, hres.symm⟩

/-- The chain invariant holds right after the initial model call. -/
lemma chainInv_initState (q : String) (tools : List MCPTool) :
    ChainInv (initState q tools) := by
  refine ⟨rfl, rfl, ?_⟩
  intro j r r2 tc hj hj2 htc
  have hb := idx_lt_of_getElem_opt hj2
  simp only [initState, List.length_cons, List.length_nil] at hb
  omega

/-- C9: for every server configuration lacking a command entry, connect fails
with the configuration error (the ValueError of client.py line 48, the
ConfigurationError of the specification) and the returned state equals the
incoming state, so no session is opened. -/
theorem C9_connect_missing_command (cfg : ServerConfig) (serverTools : List MCPTool)
    (st : ClientState) (h : cfg.command? = none) :
    connect cfg serverTools st =
      (st, some ("Server configuration must include a \x27command\x27")) := by
  unfold connect
  rw [h]

/-- C9 witness: a concrete configuration without a command entry. -/
theorem C9_witness :
    connect ⟨none, [], []⟩ [] ⟨none⟩ =
      (⟨none⟩, some ("Server configuration must include a \x27command\x27")) :=
  C9_connect_missing_command ⟨none, [], []⟩ [] ⟨none⟩ rfl

/-- C5: in every successful query run, the first model call carries no system
prompt and every model call from the second onward carries the system prompt. -/
theorem C5_system_prompt_pattern (q : String) (tools : List MCPTool)
    (tO : String → String → String) (mO : Nat → ModelResponse)
    (res : String) (st : PQState)
    (h : process_query q tools tO mO = Except.ok (res, st)) :
    (∃ r0, st.requests[0]? = some r0 ∧ r0.system? = none) ∧
    (∀ (k : Nat) (r : ModelRequest), st.requests[k]? = some r → 1 ≤ k →
      r.system? = some SYSTEM_PROMPT) := by
  obtain ⟨hpb, hres⟩ := process_query_ok q tools tO mO res st h
  obtain ⟨h1, h2, h3, h4, ⟨delta, hd1, hd2⟩, h6⟩ := processBlocks_spec tO mO _ _ _ hpb
  have hreq : st.requests = initReq q tools :: delta := by
    rw [hd1]
    rfl
  constructor
  · exact ⟨initReq q tools, by rw [hreq]; simp, rfl⟩
  · intro k r hk hk1
    obtain ⟨k2, rfl⟩ : ∃ k2, k = k2 + 1 := ⟨k - 1, by omega⟩
    rw [hreq, List.getElem?_cons_succ] at hk
    exact (hd2 r (List.getElem?_mem hk)).1

/-- C5 witness: a run with one tool-use block, hence two model calls. -/
theorem C5_witness :
    (∃ r0, (runPQ ("q") [] exTO exMO1).2.requests[0]? = some r0 ∧ r0.system? = none) ∧
    (∀ (k : Nat) (r : ModelRequest),
      (runPQ ("q") [] exTO exMO1).2.requests[k]? = some r → 1 ≤ k →
        r.system? = some SYSTEM_PROMPT) :=
  C5_system_prompt_pattern ("q") [] exTO exMO1
    (runPQ ("q") [] exTO exMO1).1 (runPQ ("q") [] exTO exMO1).2 rfl

/-- C4 counterexample: the claim as stated is false on the code.  In the
concrete run below the query triggers one tool invocation and the second model
request carries no tool declarations at all (client.py lines 119 to 124 pass
no tools argument). -/
theorem C4_counterexample : ¬ C4Stated := by
  intro h
  have h2 := h ("q") [] exTO exMO1
    (runPQ ("q") [] exTO exMO1).1 (runPQ ("q") [] exTO exMO1).2 rfl
    1 ((runPQ ("q") [] exTO exMO1).2.requests.getD 1 defaultReq) rfl
  exact absurd h2 (by decide)

/-- C4 amended: the tool catalog is computed once per query from the tools
listed at the start of the query and attached only to the first model call;
every follow-up model call carries no tool declarations. -/
theorem C4_amended_tools_only_first_call (q : String) (tools : List MCPTool)
    (tO : String → String → String) (mO : Nat → ModelResponse)
    (res : String) (st : PQState)
    (h : process_query q tools tO mO = Except.ok (res, st)) :
    st.requests[0]? = some (initReq q tools) ∧
    (initReq q tools).tools? = some (availableTools tools) ∧
    (∀ (k : Nat) (r : ModelRequest), st.requests[k]? = some r → 1 ≤ k →
      r.tools? = none) := by
  obtain ⟨hpb, hres⟩ := process_query_ok q tools tO mO res st h
  obtain ⟨h1, h2, h3, h4, ⟨delta, hd1, hd2⟩, h6⟩ := processBlocks_spec tO mO _ _ _ hpb
  have hreq : st.requests = initReq q tools :: delta := by
    rw [hd1]
    rfl
  refine ⟨by rw [hreq]; simp, rfl, ?_⟩
  intro k r hk hk1
  obtain ⟨k2, rfl⟩ : ∃ k2, k = k2 + 1 := ⟨k - 1, by omega⟩
  rw [hreq, List.getElem?_cons_succ] at hk
  exact (hd2 r (List.getElem?_mem hk)).2

/-- C4 amended witness: a run with one tool invocation, hence two requests. -/
theorem C4_amended_witness :
    (runPQ ("q") [] exTO exMO1).2.requests[0]? = some (initReq ("q") []) ∧
    (initReq ("q") []).tools? = some (availableTools []) ∧
    (∀ (k : Nat) (r : ModelRequest),
      (runPQ ("q") [] exTO exMO1).2.requests[k]? = some r → 1 ≤ k →
        r.tools? = none) :=
  C4_amended_tools_only_first_call ("q") [] exTO exMO1
    (runPQ ("q") [] exTO exMO1).1 (runPQ ("q") [] exTO exMO1).2 rfl

/-- C1 counterexample: the claim as stated is false on the code.  In the run
below the follow-up model response contains a tool-use block named B, the run
returns successfully, yet B is never dispatched and no further model call is
issued: the for loop iterates only over the content of the first response. -/
theorem C1_counterexample : ¬ C1Stated := by
  intro h
  have h2 := h ("q") [] exTO exMO2
    (runPQ ("q") [] exTO exMO2).1 (runPQ ("q") [] exTO exMO2).2 rfl
    1 (by decide) ("B") ("b") none (by decide)
  exact absurd h2.2 (by decide)

/-- C1 amended: the loop iterates only over the content blocks of the first
model response: exactly the tool-use blocks of the first response are
dispatched, in order, each triggering exactly one further model call, and the
loop then terminates regardless of whether any follow-up response contains
tool-use blocks. -/
theorem C1_amended_first_response_only (q : String) (tools : List MCPTool)
    (tO : String → String → String) (mO : Nat → ModelResponse)
    (res : String) (st : PQState)
    (h : process_query q tools tO mO = Except.ok (res, st)) :
    st.toolCalls = (toolUsesOf (mO 0).content).map
      (fun p => ⟨p.1, p.2, tO p.1 p.2⟩) ∧
    st.requests.length = 1 + (toolUsesOf (mO 0).content).length := by
  obtain ⟨hpb, hres⟩ := process_query_ok q tools tO mO res st h
  obtain ⟨h1, h2, h3, h4, hd, h6⟩ := processBlocks_spec tO mO _ _ _ hpb
  constructor
  · simpa [initState] using h2
  · simpa [initState] using h1

/-- C1 amended witness: the follow-up response contains a tool-use block B,
and the trace shows only the tool-use block of the first response dispatched
with exactly one further model call. -/
theorem C1_amended_witness :
    (runPQ ("q") [] exTO exMO2).2.toolCalls = (toolUsesOf (exMO2 0).content).map
      (fun p => ⟨p.1, p.2, exTO p.1 p.2⟩) ∧
    (runPQ ("q") [] exTO exMO2).2.requests.length =
      1 + (toolUsesOf (exMO2 0).content).length :=
  C1_amended_first_response_only ("q") [] exTO exMO2
    (runPQ ("q") [] exTO exMO2).1 (runPQ ("q") [] exTO exMO2).2 rfl

/-- C3 counterexample: the claim as stated is false on the code.  In the run
below the first response carries one tool-use block without a text attribute,
so the history grows by exactly one message for that block (the user tool
result), not by two: the assistant message of client.py lines 107 to 111 is
appended only when the block carries a nonempty text attribute. -/
theorem C3_counterexample : ¬ C3Stated := by
  intro h
  have h2 := h ("q") [] exTO exMO1
    (runPQ ("q") [] exTO exMO1).1 (runPQ ("q") [] exTO exMO1).2 rfl (by decide)
  exact absurd h2.2 (by decide)

/-- C3 amended: a first response with N tool-use blocks, N at least 1,
triggers exactly N additional model calls, and the history grows per tool-use
block by the tool-result message plus the assistant message exactly when the
block carries a nonempty text attribute, as measured by msgGrowth: two
messages with such an attribute, one without. -/
theorem C3_amended_calls_and_growth (q : String) (tools : List MCPTool)
    (tO : String → String → String) (mO : Nat → ModelResponse)
    (res : String) (st : PQState)
    (h : process_query q tools tO mO = Except.ok (res, st))
    (_hN : 1 ≤ (toolUsesOf (mO 0).content).length) :
    st.requests.length = 1 + (toolUsesOf (mO 0).content).length ∧
    st.messages.length = 1 + ((mO 0).content.map msgGrowth).sum := by
  obtain ⟨hpb, hres⟩ := process_query_ok q tools tO mO res st h
  obtain ⟨h1, h2, h3, h4, hd, h6⟩ := processBlocks_spec tO mO _ _ _ hpb
  constructor
  · simpa [initState] using h1
  · simpa [initState] using h3

/-- C3 amended witness: one tool-use block without a text attribute gives one
additional call and history growth one. -/
theorem C3_amended_witness :
    (runPQ ("q") [] exTO exMO1).2.requests.length =
      1 + (toolUsesOf (exMO1 0).content).length ∧
    (runPQ ("q") [] exTO exMO1).2.messages.length =
      1 + ((exMO1 0).content.map msgGrowth).sum :=
  C3_amended_calls_and_growth ("q") [] exTO exMO1
    (runPQ ("q") [] exTO exMO1).1 (runPQ ("q") [] exTO exMO1).2 rfl (by decide)

/-- C6: when the first model response contains no tool-use block, the run
performs exactly the one initial model call and returns the newline join of
the texts of all text blocks of that response, verbatim; the full trace is as
stated. -/
theorem C6_single_call_text_only (q : String) (tools : List MCPTool)
    (tO : String → String → String) (mO : Nat → ModelResponse)
    (h : toolUsesOf (mO 0).content = []) :
    process_query q tools tO mO =
      Except.ok (String.intercalate ("\n") (textsOf (mO 0).content),
        { messages := [⟨"user", q⟩],
          finalText := textsOf (mO 0).content,
          requests := [initReq q tools],
          toolCalls := [] }) := by
  unfold process_query
  rw [processBlocks_noTool tO mO _ _ h]
  simp [initState]

/-- C6 witness: a response of two text blocks and no tool-use block. -/
theorem C6_witness :
    process_query ("hi") [] exTO exMOText =
      Except.ok (String.intercalate ("\n") (textsOf (exMOText 0).content),
        { messages := [⟨"user", ("hi")⟩],
          finalText := textsOf (exMOText 0).content,
          requests := [initReq ("hi") []],
          toolCalls := [] }) :=
  C6_single_call_text_only ("hi") [] exTO exMOText rfl

/-- C7 counterexample: the claim as stated is false on the code.  In the run
below the only text block seen in the whole exchange is the follow-up text ok,
yet the returned string also contains the bracketed tool-call marker line that
client.py line 104 appends to final_text. -/
theorem C7_counterexample : ¬ C7Stated := by
  intro h
  have h2 := h ("q") [] exTO exMO1
    (runPQ ("q") [] exTO exMO1).1 (runPQ ("q") [] exTO exMO1).2 rfl
  exact absurd h2 (by decide)

/-- C7 amended: the returned string is the newline join of, in first-response
block order: the text of each text block, and for each tool-use block a
bracketed marker line followed by the text of the first content block of the
corresponding follow-up response (later text blocks of follow-up responses are
not included). -/
theorem C7_amended_returned_string (q : String) (tools : List MCPTool)
    (tO : String → String → String) (mO : Nat → ModelResponse)
    (res : String) (st : PQState)
    (h : process_query q tools tO mO = Except.ok (res, st)) :
    res = String.intercalate ("\n") (emitted mO (mO 0).content 1) := by
  obtain ⟨hpb, hres⟩ := process_query_ok q tools tO mO res st h
  obtain ⟨h1, h2, h3, h4, hd, h6⟩ := processBlocks_spec tO mO _ _ _ hpb
  rw [hres, h4]
  simp [initState]

/-- C7 amended witness: the concrete run returns the marker line followed by
the follow-up text. -/
theorem C7_amended_witness :
    (runPQ ("q") [] exTO exMO1).1 =
      String.intercalate ("\n") (emitted exMO1 (exMO1 0).content 1) :=
  C7_amended_returned_string ("q") [] exTO exMO1
    (runPQ ("q") [] exTO exMO1).1 (runPQ ("q") [] exTO exMO1).2 rfl

/-- C2: in every successful run there is exactly one more model call than tool
invocations, and consecutive model requests are linked by StepRel: between any
two consecutive model calls exactly the one intervening tool invocation
happened, its result appended exactly once as the final user-role message
(possibly preceded by one assistant text message) before the next call.  A
tool-use block counts as encountered when the tool-use branch of the loop
dispatches it. -/
theorem C2_one_answer_per_toolUse (q : String) (tools : List MCPTool)
    (tO : String → String → String) (mO : Nat → ModelResponse)
    (res : String) (st : PQState)
    (h : process_query q tools tO mO = Except.ok (res, st)) :
    st.requests.length = st.toolCalls.length + 1 ∧
    (∀ (j : Nat) (r r2 : ModelRequest) (tc : ToolInvocation),
      st.requests[j]? = some r → st.requests[j + 1]? = some r2 →
        st.toolCalls[j]? = some tc → StepRel r r2 tc) := by
  obtain ⟨hpb, hres⟩ := process_query_ok q tools tO mO res st h
  obtain ⟨hlen, hlast, hstep⟩ :=
    processBlocks_chain tO mO _ _ _ hpb (chainInv_initState q tools)
  exact ⟨hlen, hstep⟩

/-- C2 witness: the concrete run with one tool invocation and two requests. -/
theorem C2_witness :
    (runPQ ("q") [] exTO exMO1).2.requests.length =
      (runPQ ("q") [] exTO exMO1).2.toolCalls.length + 1 ∧
    (∀ (j : Nat) (r r2 : ModelRequest) (tc : ToolInvocation),
      (runPQ ("q") [] exTO exMO1).2.requests[j]? = some r →
        (runPQ ("q") [] exTO exMO1).2.requests[j + 1]? = some r2 →
          (runPQ ("q") [] exTO exMO1).2.toolCalls[j]? = some tc → StepRel r r2 tc) :=
  C2_one_answer_per_toolUse ("q") [] exTO exMO1
    (runPQ ("q") [] exTO exMO1).1 (runPQ ("q") [] exTO exMO1).2 rfl

/-- C8: for every tool invocation dispatched by the loop, the result returned
by call_tool is retrievable verbatim as the content of the user-role message
appended immediately after that invocation, namely the last message of the
request issued right after it. -/
theorem C8_result_roundtrip (q : String) (tools : List MCPTool)
    (tO : String → String → String) (mO : Nat → ModelResponse)
    (res : String) (st : PQState)
    (h : process_query q tools tO mO = Except.ok (res, st)) :
    ∀ (j : Nat) (tc : ToolInvocation), st.toolCalls[j]? = some tc →
      ∃ r2, st.requests[j + 1]? = some r2 ∧
        r2.messages.getLast? = some ⟨"user", tc.result⟩ := by
  obtain ⟨hpb, hres⟩ := process_query_ok q tools tO mO res st h
  obtain ⟨hlen, hlast, hstep⟩ :=
    processBlocks_chain tO mO _ _ _ hpb (chainInv_initState q tools)
  intro j tc htc
  have hjlt : j < st.toolCalls.length := idx_lt_of_getElem_opt htc
  have hj1 : j + 1 < st.requests.length := by omega
  have hj0 : j < st.requests.length := by omega
  have hr : st.requests[j]? = some st.requests[j] := List.getElem?_eq_getElem hj0
  have hr2 : st.requests[j + 1]? = some st.requests[j + 1] :=
    List.getElem?_eq_getElem hj1
  have hsr := hstep j _ _ tc hr hr2 htc
  refine ⟨st.requests[j + 1], hr2, ?_⟩
  rcases hsr with h1 | ⟨t, h2⟩
  · rw [h1, List.getLast?_concat]
  · have hsplit : (st.requests[j]).messages ++
        [⟨"assistant", t⟩, ⟨"user", tc.result⟩] =
        ((st.requests[j]).messages ++ [⟨"assistant", t⟩]) ++ [⟨"user", tc.result⟩] := by
      simp
    rw [h2, hsplit, List.getLast?_concat]

/-- C8 witness: in the concrete run the result of the single tool invocation
is the last message of the second request. -/
theorem C8_witness :
    ∃ r2, (runPQ ("q") [] exTO exMO1).2.requests[0 + 1]? = some r2 ∧
      r2.messages.getLast? =
        some ⟨"user", ToolInvocation.result ⟨("A"), ("a"), exTO ("A") ("a")⟩⟩ :=
  C8_result_roundtrip ("q") [] exTO exMO1
    (runPQ ("q") [] exTO exMO1).1 (runPQ ("q") [] exTO exMO1).2 rfl
    0 ⟨("A"), ("a"), exTO ("A") ("a")⟩ rfl

/-- C10 counterexample: the claim as stated is false on the embedding.  In the
run below the follow-up response consists of a single tool-use block that
carries a text attribute: its first block is not a text block, yet the
attribute access succeeds and process_query returns instead of raising. -/
theorem C10_counterexample : ¬ C10Stated := by
  intro h
  have h2 := h ("q") [] exTO exMO3
    (runPQ ("q") [] exTO exMO3).1 (runPQ ("q") [] exTO exMO3).2 rfl
    1 (by omega) (by decide)
  obtain ⟨b, rest2, hEq, hText⟩ := h2
  rw [show (exMO3 1).content =
    [ContentBlock.toolUse ("B") ("b") (some ("bt"))] from rfl] at hEq
  cases hEq
  exact absurd hText (by decide)

/-- C10 amended: after every tool invocation, the text of the first content
block of the follow-up response is read unconditionally, so a successful run
requires every consulted follow-up response to have nonempty content whose
first block carries a text value; a follow-up with empty content raises
IndexError and one whose first block carries no text attribute raises
AttributeError instead of returning an answer. -/
theorem C10_amended_unguarded_first_text (q : String) (tools : List MCPTool)
    (tO : String → String → String) (mO : Nat → ModelResponse)
    (res : String) (st : PQState)
    (h : process_query q tools tO mO = Except.ok (res, st)) :
    ∀ (k : Nat), 1 ≤ k → k < st.requests.length →
      ∃ t, firstTextOf (mO k) = Except.ok t := by
  obtain ⟨hpb, hres⟩ := process_query_ok q tools tO mO res st h
  obtain ⟨h1, h2, h3, h4, hd, h6⟩ := processBlocks_spec tO mO _ _ _ hpb
  intro k hk1 hk2
  exact h6 k hk1 hk2

/-- C10 amended witness: the concrete run consults the follow-up response at
index one and its first-block text access succeeds. -/
theorem C10_amended_witness :
    ∃ t, firstTextOf (exMO1 1) = Except.ok t :=
  C10_amended_unguarded_first_text ("q") [] exTO exMO1
    (runPQ ("q") [] exTO exMO1).1 (runPQ ("q") [] exTO exMO1).2 rfl
    1 (by omega) (by decide)
